import Mathlib

/-!
Shallow embedding of the tooz Redis coordination driver
(src/tooz/drivers/redis.py) in Lean 4.

The Python driver manipulates two kinds of state:

* the Redis store itself (hashes holding the per-group member entries,
  plus one Redis set holding the group registry), and
* the driver-local bookkeeping (the joined-groups set, the acquired-locks
  set, the per-group membership snapshots and the watch callbacks).

Both are made explicit below.  Pure Python functions become Lean
functions; methods that mutate state become functions returning the new
state; raised exceptions become an explicit error type threaded through
an `Except`-shaped result.  Redis primitive commands (EXISTS, HSET,
HDEL, HKEYS, HGET, HEXISTS, SADD, SMEMBERS) are modelled with their
documented semantics: a hash is an association list of fields, HSET
always stores the value and reports whether the field was new, HDEL
removes the key when the hash becomes empty (Redis never keeps empty
hashes, which is exactly why the driver keeps the `__created__`
sentinel field).
-/

/-- Exceptions raised by the driver: the tooz coordination errors, plus
the ValueError raised by `_encode_member_id` on the reserved member id.
Each carries the identifying payload that the Python constructor gets. -/
inductive TErr where
  | toozError (msg : String)
  | toozConnectionError (msg : String)
  | operationTimedOut (msg : String)
  | groupAlreadyExist (group_id : String)
  | groupNotCreated (group_id : String)
  | memberAlreadyExist (group_id member_id : String)
  | memberNotJoined (group_id member_id : String)
  | valueError (msg : String)
  deriving DecidableEq, Repr

/-- Redis-native exceptions (from the redis client library) that can
escape from a unit of work: connection errors, socket timeouts, lock
errors and the remaining RedisError subclasses. -/
inductive RErr where
  | connectionError (msg : String)
  | timeoutError (msg : String)
  | lockError (msg : String)
  | otherRedisError (msg : String)
  deriving DecidableEq, Repr

/-- Embedding of the `_translate_failures` context manager: redis
ConnectionError and TimeoutError become ToozConnectionError, every other
RedisError (LockError included, when it is not caught earlier) becomes
ToozError. -/
def _translate_failures : RErr → TErr
  | RErr.connectionError m => TErr.toozConnectionError m
  | RErr.timeoutError m => TErr.toozConnectionError m
  | RErr.lockError m => TErr.toozError m
  | RErr.otherRedisError m => TErr.toozError m

/-- Association-list lookup by key (string keys, leftmost entry wins;
the store operations below keep keys unique). -/
def alookup (k : String) : List (String × α) → Option α
  | [] => none
  | (k2, v) :: rest => if k2 = k then some v else alookup k rest

/-- Association-list update: replace the value at the key, or append the
binding when the key is absent. -/
def aset (k : String) (v : α) : List (String × α) → List (String × α)
  | [] => [(k, v)]
  | (k2, v2) :: rest =>
      if k2 = k then (k2, v) :: rest else (k2, v2) :: aset k v rest

/-- Association-list removal of a key. -/
def aremove (k : String) : List (String × α) → List (String × α)
  | [] => []
  | (k2, v2) :: rest =>
      if k2 = k then rest else (k2, v2) :: aremove k rest

/-- One Redis hash: a list of field/value pairs with unique fields. -/
abbrev RHash := List (String × String)

/-- The Redis store as the driver sees it: the hash keys (one per
created group) and the set keys (the group registry). -/
structure RedisStore where
  hashes : List (String × RHash)
  sets : List (String × List String)
  deriving DecidableEq, Repr

/-- EXISTS: a key exists when some hash or set lives at it (Redis drops
a hash key as soon as the hash has no fields, so key existence is what
the driver's `p.exists` checks observe). -/
def RedisStore.existsKey (s : RedisStore) (k : String) : Bool :=
  (alookup k s.hashes).isSome || (alookup k s.sets).isSome

/-- HSET: store the value under the field (creating the hash when the
key is absent) and report 1 when the field is new, 0 when the field
already existed — in the latter case the old value is overwritten. -/
def RedisStore.hset (s : RedisStore) (k f v : String) : Nat × RedisStore :=
  match alookup k s.hashes with
  | none => (1, { s with hashes := aset k [(f, v)] s.hashes })
  | some h =>
      match alookup f h with
      | none => (1, { s with hashes := aset k (aset f v h) s.hashes })
      | some _ => (0, { s with hashes := aset k (aset f v h) s.hashes })

/-- HDEL of one field: report how many fields were removed (0 or 1) and
drop the whole key when the hash becomes empty. -/
def RedisStore.hdel (s : RedisStore) (k f : String) : Nat × RedisStore :=
  match alookup k s.hashes with
  | none => (0, s)
  | some h =>
      match alookup f h with
      | none => (0, s)
      | some _ =>
          let h2 := aremove f h
          if h2.isEmpty then
            (1, { s with hashes := aremove k s.hashes })
          else
            (1, { s with hashes := aset k h2 s.hashes })

/-- HEXISTS: does the field exist in the hash at the key. -/
def RedisStore.hexists (s : RedisStore) (k f : String) : Bool :=
  match alookup k s.hashes with
  | none => false
  | some h => (alookup f h).isSome

/-- HGET: the value stored under the field, when present. -/
def RedisStore.hget (s : RedisStore) (k f : String) : Option String :=
  match alookup k s.hashes with
  | none => none
  | some h => alookup f h

/-- HKEYS: all field names of the hash at the key ([] when absent). -/
def RedisStore.hkeys (s : RedisStore) (k : String) : List String :=
  match alookup k s.hashes with
  | none => []
  | some h => h.map Prod.fst

/-- SADD of one value: insert it into the set at the key unless already
a member (creating the set when the key is absent). -/
def RedisStore.sadd (s : RedisStore) (k v : String) : RedisStore :=
  match alookup k s.sets with
  | none => { s with sets := aset k [v] s.sets }
  | some m =>
      if v ∈ m then s else { s with sets := aset k (m ++ [v]) s.sets }

/-- SMEMBERS: the members of the set at the key ([] when absent). -/
def RedisStore.smembers (s : RedisStore) (k : String) : List String :=
  match alookup k s.sets with
  | none => []
  | some m => m

/-- The reserved field `_GROUP_EXISTS` that marks a created group, kept
so Redis does not delete the hash when the group has no members. -/
def _GROUP_EXISTS : String := "__created__"

/-- Embedding of `_encode_group_id`: namespace separator join of the
group prefix (namespace ++ "_group") and the group id. -/
def _encode_group_id (ns group_id : String) : String :=
  ns ++ "_group" ++ ":" ++ group_id

/-- The registry key `self._groups` (namespace ++ "_groups"). -/
def groupsKey (ns : String) : String := ns ++ "_groups"

/-- Embedding of `_encode_member_id`: the reserved sentinel value is
refused with a ValueError, every other member id passes through. -/
def _encode_member_id (member_id : String) : Except TErr String :=
  if member_id = _GROUP_EXISTS then
    Except.error (TErr.valueError "Not allowed to use private keys as a member id")
  else
    Except.ok member_id

/-- Serialization of a capabilities payload.  `msgpack.dumps` is an
external codec whose only property the driver relies on is that equal
payloads serialize equally; it is embedded as the identity injection
from payloads to stored blobs. -/
def _dumps (capabilities : String) : String := capabilities

/-- The driver-local state a group transaction can touch: the store and
the driver's `_joined_groups` set. -/
structure GroupState where
  store : RedisStore
  joined_groups : List String
  deriving DecidableEq, Repr

/-- Embedding of the `_create_group` transaction body of
`create_group`: fail with GroupAlreadyExist when the group key exists,
otherwise SADD the id into the registry and HSET the sentinel field. -/
def _create_group (ns group_id : String) (st : GroupState) :
    Except TErr Unit × GroupState :=
  let encoded_group := _encode_group_id ns group_id
  if st.store.existsKey encoded_group then
    (Except.error (TErr.groupAlreadyExist group_id), st)
  else
    let s1 := st.store.sadd (groupsKey ns) group_id
    let s2 := (s1.hset encoded_group _GROUP_EXISTS "1").2
    (Except.ok (), { st with store := s2 })

/-- Embedding of `join_group` (the member-id encoding done in the outer
method plus the `_join_group` transaction body): fail with
GroupNotCreated when the group key is absent; otherwise HSET the
serialized capabilities under the member id and, when HSET reports the
field already existed, fail with MemberAlreadyExist — the HSET has
already run at that point — else record the group in
`_joined_groups`. -/
def join_group (ns member_id group_id capabilities : String)
    (st : GroupState) : Except TErr Unit × GroupState :=
  match _encode_member_id member_id with
  | Except.error e => (Except.error e, st)
  | Except.ok encoded_member_id =>
      let encoded_group := _encode_group_id ns group_id
      if !st.store.existsKey encoded_group then
        (Except.error (TErr.groupNotCreated group_id), st)
      else
        let (c, s1) :=
          st.store.hset encoded_group encoded_member_id (_dumps capabilities)
        if c = 0 then
          (Except.error (TErr.memberAlreadyExist group_id member_id),
           { st with store := s1 })
        else
          (Except.ok (),
           { store := s1, joined_groups :=
              if group_id ∈ st.joined_groups then st.joined_groups
              else st.joined_groups ++ [group_id] })

/-- Embedding of `leave_group`: fail with GroupNotCreated when the
group key is absent; otherwise HDEL the member's field, failing with
MemberNotJoined when nothing was deleted, else discard the group from
`_joined_groups`. -/
def leave_group (ns member_id group_id : String) (st : GroupState) :
    Except TErr Unit × GroupState :=
  match _encode_member_id member_id with
  | Except.error e => (Except.error e, st)
  | Except.ok encoded_member_id =>
      let encoded_group := _encode_group_id ns group_id
      if !st.store.existsKey encoded_group then
        (Except.error (TErr.groupNotCreated group_id), st)
      else
        let (c, s1) := st.store.hdel encoded_group encoded_member_id
        if c = 0 then
          (Except.error (TErr.memberNotJoined group_id member_id),
           { st with store := s1 })
        else
          (Except.ok (),
           { store := s1,
             joined_groups := st.joined_groups.filter (· ≠ group_id) })

/-- Embedding of `update_capabilities`: fail with GroupNotCreated when
the group key is absent, with MemberNotJoined when the member's field is
absent, otherwise HSET the new serialized capabilities.  The
transaction body never touches `_joined_groups`. -/
def update_capabilities (ns member_id group_id capabilities : String)
    (st : GroupState) : Except TErr Unit × GroupState :=
  match _encode_member_id member_id with
  | Except.error e => (Except.error e, st)
  | Except.ok encoded_member_id =>
      let encoded_group := _encode_group_id ns group_id
      if !st.store.existsKey encoded_group then
        (Except.error (TErr.groupNotCreated group_id), st)
      else if !st.store.hexists encoded_group encoded_member_id then
        (Except.error (TErr.memberNotJoined group_id member_id), st)
      else
        let s1 :=
          (st.store.hset encoded_group encoded_member_id
            (_dumps capabilities)).2
        (Except.ok (), { st with store := s1 })

/-- Embedding of the `_get_members` transaction body: fail with
GroupNotCreated when the group key is absent, otherwise return every
field name of the group hash except the `_GROUP_EXISTS` sentinel
(`_decode_member_id` is the identity).  It mutates neither the store
nor any driver-local state, which its type makes structural. -/
def get_members (ns group_id : String) (store : RedisStore) :
    Except TErr (List String) :=
  let encoded_group := _encode_group_id ns group_id
  if !store.existsKey encoded_group then
    Except.error (TErr.groupNotCreated group_id)
  else
    Except.ok ((store.hkeys encoded_group).filter (· ≠ _GROUP_EXISTS))

/-- Embedding of `get_member_capabilities`: GroupNotCreated when the
group key is absent, MemberNotJoined when HGET finds no field,
otherwise the deserialized blob (`_loads`, the codec inverse, is again
the identity). -/
def get_member_capabilities (ns member_id group_id : String)
    (store : RedisStore) : Except TErr String :=
  match _encode_member_id member_id with
  | Except.error e => Except.error e
  | Except.ok encoded_member_id =>
      let encoded_group := _encode_group_id ns group_id
      if !store.existsKey encoded_group then
        Except.error (TErr.groupNotCreated group_id)
      else
        match store.hget encoded_group encoded_member_id with
        | none => Except.error (TErr.memberNotJoined group_id member_id)
        | some blob => Except.ok blob

/-- Embedding of `get_groups`: SMEMBERS of the registry key, collected
into a list; no existence check is involved. -/
def get_groups (ns : String) (store : RedisStore) : List String :=
  store.smembers (groupsKey ns)

/-! ## The lock (`RedisLock`)

The lock delegates acquisition, release and lease extension to the
redis client's native lock object.  The store side is abstracted as the
response the client call produces: success, failure, a LockError, or a
raised redis-native exception.  The driver-visible state is the lock's
`_acquired` flag together with the driver's `_acquired_locks` set
(membership of this lock, identified by its name). -/

/-- Embedding of the lock name built by `RedisLock.__init__`:
namespace, caller name and the fixed lock suffix. -/
def redis_lock_name (ns name : String) : String :=
  ns ++ "_" ++ name ++ "_lock"

/-- What `self._lock.acquire(...)` can come back with. -/
inductive AcquireResp where
  | ok
  | failed
  | exc (e : RErr)
  deriving DecidableEq, Repr

/-- What `self._lock.release()` can come back with: confirmed release,
a LockError ("not mine to release"), or another redis-native error. -/
inductive ReleaseResp where
  | ok
  | lockErr (msg : String)
  | exc (e : RErr)
  deriving DecidableEq, Repr

/-- What `self._lock.extend(...)` can come back with. -/
inductive ExtendResp where
  | ok
  | exc (e : RErr)
  deriving DecidableEq, Repr

/-- The lock-related state of one driver instance holding one lock
object: the lock's `_acquired` flag and whether the lock is a member of
the coordinator's `_acquired_locks` set. -/
structure LockDriverState where
  acquired : Bool
  acquired_locks : List String
  deriving DecidableEq, Repr

/-- Embedding of `RedisLock.acquire`: the flag is assigned the client
result (so a failed call clears it), a successful call also adds the
lock to the coordinator's `_acquired_locks`; a raised redis error is
translated and leaves the assignment unexecuted. -/
def RedisLock.acquire (name : String) (resp : AcquireResp)
    (st : LockDriverState) : Except TErr Bool × LockDriverState :=
  match resp with
  | AcquireResp.ok =>
      (Except.ok true,
       { acquired := true,
         acquired_locks :=
           if name ∈ st.acquired_locks then st.acquired_locks
           else st.acquired_locks ++ [name] })
  | AcquireResp.failed => (Except.ok false, { st with acquired := false })
  | AcquireResp.exc e => (Except.error (_translate_failures e), st)

/-- Embedding of `RedisLock.release`: returns False at once when the
flag is down (never contacting the store, hence the same result on
every store response); otherwise a LockError makes it return False with
nothing changed, another redis error is translated and raised with
nothing changed, and only a confirmed release discards the lock from
`_acquired_locks` and clears the flag. -/
def RedisLock.release (name : String) (resp : ReleaseResp)
    (st : LockDriverState) : Except TErr Bool × LockDriverState :=
  if !st.acquired then
    (Except.ok false, st)
  else
    match resp with
    | ReleaseResp.ok =>
        (Except.ok true,
         { acquired := false,
           acquired_locks := st.acquired_locks.filter (· ≠ name) })
    | ReleaseResp.lockErr _ => (Except.ok false, st)
    | ReleaseResp.exc e => (Except.error (_translate_failures e), st)

/-- Embedding of `RedisLock.heartbeat`: extend the lease only when the
flag is up; the local state is never changed. -/
def RedisLock.heartbeat (resp : ExtendResp) (st : LockDriverState) :
    Except TErr Unit × LockDriverState :=
  if st.acquired then
    match resp with
    | ExtendResp.ok => (Except.ok (), st)
    | ExtendResp.exc e => (Except.error (_translate_failures e), st)
  else
    (Except.ok (), st)

/-- Embedding of the lock-renewal loop of `RedisDriver.heartbeat`: it
walks `_acquired_locks` and calls each lock's `heartbeat`, which issues
an extend command exactly for the locks whose `_acquired` flag is up
(errors are caught and logged, aborting nothing).  The function returns
the names of the locks for which an extend command is issued, given the
per-name flag. -/
def heartbeat_extend_targets (acquired_locks : List String)
    (flag : String → Bool) : List String :=
  acquired_locks.filter flag

/-- One client-visible call on the lock, carrying the store's
response. -/
inductive LockOp where
  | acquire (resp : AcquireResp)
  | release (resp : ReleaseResp)
  | heartbeat (resp : ExtendResp)
  deriving DecidableEq, Repr

/-- The state reached after one lock call (the returned value or raised
error is dropped). -/
def lockStep (name : String) (st : LockDriverState) : LockOp → LockDriverState
  | LockOp.acquire r => (RedisLock.acquire name r st).2
  | LockOp.release r => (RedisLock.release name r st).2
  | LockOp.heartbeat r => (RedisLock.heartbeat r st).2

/-- The state reached after a sequence of lock calls. -/
def lockRun (name : String) (st : LockDriverState) (ops : List LockOp) :
    LockDriverState :=
  ops.foldl (lockStep name) st

/-- The initial lock state: flag down, lock in no held set. -/
def lockInit : LockDriverState :=
  { acquired := false, acquired_locks := [] }

/-! ## The asynchronous result (`RedisFutureResult`)

A unit of work submitted to the single-worker executor either never
completes, or completes at some (abstract, worker-clock) time with an
outcome: a value, a redis-native exception, or a tooz exception raised
by the transaction body.  `Fut.result` embeds
`concurrent.futures.Future.result(timeout)`; what the driver adds on
top of it — the translation boundary and the OperationTimedOut
conversion — is `RedisFutureResult.get`. -/

/-- Outcome of a completed unit of work. -/
inductive WorkOut (α : Type) where
  | value (a : α)
  | redisExc (e : RErr)
  | toozExc (e : TErr)
  deriving DecidableEq, Repr

/-- A future: `none` when the work never completes, otherwise the
completion time and the outcome. -/
structure Fut (α : Type) where
  completion : Option (Nat × WorkOut α)
  deriving DecidableEq, Repr

/-- What a `Future.result(timeout)` call does: deliver the outcome when
completion arrives within the bound, raise TimeoutError when a finite
bound expires first, and block forever when an unbounded wait meets
work that never completes. -/
inductive FutResult (α : Type) where
  | out (o : WorkOut α)
  | timedOut
  | blocked
  deriving DecidableEq, Repr

/-- Embedding of `Future.result(timeout)` (timeout `none` is Python's
`timeout=None`, an unbounded wait). -/
def Fut.result (f : Fut α) (timeout : Option Nat) : FutResult α :=
  match f.completion, timeout with
  | none, none => FutResult.blocked
  | none, some _ => FutResult.timedOut
  | some (_, o), none => FutResult.out o
  | some (tc, o), some t =>
      if tc ≤ t then FutResult.out o else FutResult.timedOut

/-- Embedding of `RedisFutureResult.get`: the default timeout is 10;
the future's result is awaited under `_translate_failures`, so a
redis-native error stored in the future is translated here, a tooz
error passes through, and an expired wait becomes OperationTimedOut.
The `none` result is the unbounded-wait-never-completes case in which
the call does not return. -/
def RedisFutureResult.get (f : Fut α) (timeout : Option Nat := some 10) :
    Option (Except TErr α) :=
  match f.result timeout with
  | FutResult.blocked => none
  | FutResult.timedOut =>
      some (Except.error (TErr.operationTimedOut "operation timed out"))
  | FutResult.out (WorkOut.value a) => some (Except.ok a)
  | FutResult.out (WorkOut.redisExc e) =>
      some (Except.error (_translate_failures e))
  | FutResult.out (WorkOut.toozExc e) => some (Except.error e)

/-- Embedding of `RedisFutureResult.done`. -/
def RedisFutureResult.done (f : Fut α) : Bool :=
  f.completion.isSome

/-- Embedding of `RedisDriver._submit`: refuse with a ToozError when
the driver is not started or the executor has been shut down, otherwise
hand the unit of work to the executor and return its future as-is — no
inspection or translation of the work's eventual outcome happens at
submission time. -/
def _submit (started executor_alive : Bool) (work : Fut α) :
    Except TErr (Fut α) :=
  if !started then
    Except.error (TErr.toozError "Redis driver has not been started")
  else if !executor_alive then
    Except.error (TErr.toozError "Redis driver asynchronous executor has been shutdown")
  else
    Except.ok work

/-! ## The watcher / poller

`run_watchers`, `watch_join_group`, `watch_leave_group` and
`_init_watch_group` live in src/tooz/drivers/redis.py, but they lean on
three attributes of the base CoordinationDriver class, whose module is
not part of this tree; those attributes are modelled from the spec
below.  Callbacks are identified by an opaque number; invoking callback
cb with event ev is recorded as the pair (cb, ev), and the list of such
records is what a hook run returns. -/

/-- A membership-change event handed to a callback. -/
inductive GroupEvent where
  | memberJoinedGroup (group_id member_id : String)
  | memberLeftGroup (group_id member_id : String)
  deriving DecidableEq, Repr

/-- Modelled from the spec: the hook lists of the base
CoordinationDriver (absent from src/).  Running the hooks of a group
invokes every registered callback once with the given event; a group
with no registration has an empty hook list. -/
def hooks_run (hooks : List Nat) (ev : GroupEvent) : List (Nat × GroupEvent) :=
  hooks.map (fun cb => (cb, ev))

/-- Modelled from the spec: the watcher-side state of the base
CoordinationDriver (absent from src/): the per-group last-observed
membership snapshot (a map where a group never watched reads as the
empty set) and the per-group join/leave callback registrations. -/
structure WatchState where
  group_members : List (String × List String)
  hooks_join_group : List (String × List Nat)
  hooks_leave_group : List (String × List Nat)
  deriving DecidableEq, Repr

/-- The stored snapshot of a group: the empty set when the group was
never recorded (defaultdict/get-with-default reads). -/
def snapshot_of (ws : WatchState) (group_id : String) : List String :=
  (alookup group_id ws.group_members).getD []

/-- The registered join callbacks of a group. -/
def join_hooks_of (ws : WatchState) (group_id : String) : List Nat :=
  (alookup group_id ws.hooks_join_group).getD []

/-- The registered leave callbacks of a group. -/
def leave_hooks_of (ws : WatchState) (group_id : String) : List Nat :=
  (alookup group_id ws.hooks_leave_group).getD []

/-- The current member set of a group as `run_watchers` computes it:
Python's set() of the `get_members` result, embedded as dedup of the
member list. -/
def current_member_set (ns group_id : String) (store : RedisStore) :
    List String :=
  ((store.hkeys (_encode_group_id ns group_id)).filter
    (· ≠ _GROUP_EXISTS)).dedup

/-- The body of the `run_watchers` loop for one group: fetch the
current members (propagating a `get_members` failure as the `.get()`
call would raise it), diff against the stored snapshot, run the join
hooks once per newly-present member and the leave hooks once per
newly-absent member, then overwrite the stored snapshot with the
current set. -/
def run_watchers_group (ns group_id : String) (store : RedisStore)
    (ws : WatchState) : Except TErr (List (Nat × GroupEvent) × WatchState) :=
  match get_members ns group_id store with
  | Except.error e => Except.error e
  | Except.ok members =>
      let group_members := members.dedup
      let old_group_members := snapshot_of ws group_id
      let joined := group_members.filter (· ∉ old_group_members)
      let left := old_group_members.filter (· ∉ group_members)
      let evs :=
        joined.flatMap (fun m =>
          hooks_run (join_hooks_of ws group_id)
            (GroupEvent.memberJoinedGroup group_id m)) ++
        left.flatMap (fun m =>
          hooks_run (leave_hooks_of ws group_id)
            (GroupEvent.memberLeftGroup group_id m))
      let snaps := aset group_id group_members ws.group_members
      Except.ok (evs, { ws with group_members := snaps })

/-- The `run_watchers` loop over a list of group ids, accumulating
the invocation records in iteration order. -/
def run_watchers_go (ns : String) (store : RedisStore) :
    List String → WatchState →
    Except TErr (List (Nat × GroupEvent) × WatchState)
  | [], ws => Except.ok ([], ws)
  | group_id :: rest, ws =>
      match run_watchers_group ns group_id store ws with
      | Except.error e => Except.error e
      | Except.ok (evs, ws1) =>
          match run_watchers_go ns store rest ws1 with
          | Except.error e => Except.error e
          | Except.ok (evs2, ws2) => Except.ok (evs ++ evs2, ws2)

/-- Embedding of `RedisDriver.run_watchers`: iterate the group registry
(`get_groups`), per group diff current membership against the stored
snapshot, fire the callbacks, and store the new snapshot. -/
def run_watchers (ns : String) (store : RedisStore) (ws : WatchState) :
    Except TErr (List (Nat × GroupEvent) × WatchState) :=
  run_watchers_go ns store (get_groups ns store) ws

/-- Embedding of `_init_watch_group`: fetch the group's current members
(an unbounded `.get(timeout=None)` wait, whose error would propagate)
and union them into the group's snapshot entry (`set.update` on the
defaultdict entry, which starts empty on first touch). -/
def _init_watch_group (ns group_id : String) (store : RedisStore)
    (ws : WatchState) : Except TErr WatchState :=
  match get_members ns group_id store with
  | Except.error e => Except.error e
  | Except.ok members =>
      let old := snapshot_of ws group_id
      let updated := old ++ (members.dedup.filter (· ∉ old))
      let snaps := aset group_id updated ws.group_members
      Except.ok { ws with group_members := snaps }

/-- Embedding of `watch_join_group`: initialize the group's snapshot,
then (modelled from the spec, the base-class registration being absent
from src/) append the callback to the group's join hooks. -/
def watch_join_group (ns group_id : String) (cb : Nat)
    (store : RedisStore) (ws : WatchState) : Except TErr WatchState :=
  match _init_watch_group ns group_id store ws with
  | Except.error e => Except.error e
  | Except.ok ws1 =>
      let hooks :=
        aset group_id (join_hooks_of ws1 group_id ++ [cb]) ws1.hooks_join_group
      Except.ok { ws1 with hooks_join_group := hooks }

/-- Embedding of `watch_leave_group`: initialize the group's snapshot,
then (modelled from the spec) append the callback to the group's leave
hooks. -/
def watch_leave_group (ns group_id : String) (cb : Nat)
    (store : RedisStore) (ws : WatchState) : Except TErr WatchState :=
  match _init_watch_group ns group_id store ws with
  | Except.error e => Except.error e
  | Except.ok ws1 =>
      let hooks :=
        aset group_id (leave_hooks_of ws1 group_id ++ [cb]) ws1.hooks_leave_group
      Except.ok { ws1 with hooks_leave_group := hooks }

/-! ## Basic lemmas about the association-list store -/

theorem alookup_aset_self (k : String) (v : α) (l : List (String × α)) :
    alookup k (aset k v l) = some v := by
  induction l with
  | nil => simp [aset, alookup]
  | cons p rest ih =>
      obtain ⟨k2, v2⟩ := p
      by_cases h : k2 = k
      · simp [aset, alookup, h]
      · simp [aset, alookup, h, ih]

theorem alookup_aset_ne (k k2 : String) (v : α) (l : List (String × α))
    (h : k2 ≠ k) : alookup k2 (aset k v l) = alookup k2 l := by
  have hk : ¬ k = k2 := fun e => h e.symm
  induction l with
  | nil => simp [aset, alookup, hk]
  | cons p rest ih =>
      obtain ⟨k3, v3⟩ := p
      by_cases h3 : k3 = k
      · subst h3
        simp [aset, alookup, hk]
      · simp [aset, alookup, h3, ih]

theorem alookup_mem (k : String) (v : α) (l : List (String × α))
    (h : alookup k l = some v) : (k, v) ∈ l := by
  induction l with
  | nil => simp [alookup] at h
  | cons p rest ih =>
      obtain ⟨k2, v2⟩ := p
      by_cases h2 : k2 = k
      · subst h2
        simp [alookup] at h
        simp [h]
      · simp [alookup, h2] at h
        exact List.mem_cons_of_mem _ (ih h)

/-! ## C1 — joining a group twice -/

/-- C1: `join_group` on a member that already has an entry does raise
MemberAlreadyExist, but only after the HSET has already run, so the
stored capability blob has been overwritten with the new serialized
capabilities — it does not remain the originally joined blob.  At the
concrete failing input: group g1 created, member m1 joined with blob
for "caps1"; a second join with "caps2" raises the error while the
stored blob is now the serialization of "caps2". -/
theorem join_group_overwrites_before_member_exists_error :
    join_group "_tooz" "m1" "g1" "caps2"
        { store :=
            { hashes := [("_tooz_group:g1",
                [(_GROUP_EXISTS, "1"), ("m1", _dumps "caps1")])],
              sets := [("_tooz_groups", ["g1"])] },
          joined_groups := ["g1"] } =
      (Except.error (TErr.memberAlreadyExist "g1" "m1"),
       { store :=
           { hashes := [("_tooz_group:g1",
               [(_GROUP_EXISTS, "1"), ("m1", _dumps "caps2")])],
             sets := [("_tooz_groups", ["g1"])] },
         joined_groups := ["g1"] }) ∧
    _dumps "caps2" ≠ _dumps "caps1" :=
  ⟨rfl, by decide⟩

/-! ## C5 — lock release semantics -/

/-- C5: `release` returns false at once when the lock is not locally
held, and the result does not depend on any store response (the store
is not contacted); when locally held, a confirmed release removes the
lock from the held-lock set and clears the flag, a LockError from the
store yields false without raising and without touching flag or set,
and any other store error is raised translated, also leaving flag and
set unchanged. -/
theorem redis_lock_release_spec (name msg : String) (st : LockDriverState)
    (resp : ReleaseResp) (e : RErr) :
    (st.acquired = false → RedisLock.release name resp st = (Except.ok false, st)) ∧
    (st.acquired = true →
       RedisLock.release name ReleaseResp.ok st =
         (Except.ok true,
          { acquired := false,
            acquired_locks := st.acquired_locks.filter (· ≠ name) }) ∧
       RedisLock.release name (ReleaseResp.lockErr msg) st = (Except.ok false, st) ∧
       RedisLock.release name (ReleaseResp.exc e) st =
         (Except.error (_translate_failures e), st)) := by
  constructor
  · intro h
    simp [RedisLock.release, h]
  · intro h
    refine ⟨?_, ?_, ?_⟩ <;> simp [RedisLock.release, h]

/-- Witness for C5 at a held lock and a LockError response. -/
theorem redis_lock_release_spec_witness :
    RedisLock.release "_tooz_r_lock" (ReleaseResp.lockErr "not mine")
        { acquired := true, acquired_locks := ["_tooz_r_lock"] } =
      (Except.ok false,
       { acquired := true, acquired_locks := ["_tooz_r_lock"] }) :=
  ((redis_lock_release_spec "_tooz_r_lock" "not mine"
      { acquired := true, acquired_locks := ["_tooz_r_lock"] }
      (ReleaseResp.lockErr "not mine") (RErr.otherRedisError "")).2
    rfl).2.1

/-! ## C9 — the held-lock bookkeeping invariant -/

/-- One lock call keeps the direction "flag up implies the lock is in
the held set" of the bookkeeping invariant. -/
theorem lockStep_preserves_flag_held (name : String) (st : LockDriverState)
    (op : LockOp) (hinv : st.acquired = true → name ∈ st.acquired_locks) :
    (lockStep name st op).acquired = true →
      name ∈ (lockStep name st op).acquired_locks := by
  cases op with
  | acquire r =>
      cases r with
      | ok =>
          intro _
          by_cases hmem : name ∈ st.acquired_locks <;>
            simp [lockStep, RedisLock.acquire, hmem]
      | failed => simp [lockStep, RedisLock.acquire]
      | exc e => simpa [lockStep, RedisLock.acquire] using hinv
  | release r =>
      by_cases ha : st.acquired
      · cases r with
        | ok => simp [lockStep, RedisLock.release, ha]
        | lockErr msg => simpa [lockStep, RedisLock.release, ha] using hinv
        | exc e => simpa [lockStep, RedisLock.release, ha] using hinv
      · simp only [Bool.not_eq_true] at ha
        simp [lockStep, RedisLock.release, ha]
  | heartbeat r =>
      by_cases ha : st.acquired
      · cases r with
        | ok => simpa [lockStep, RedisLock.heartbeat, ha] using hinv
        | exc e => simpa [lockStep, RedisLock.heartbeat, ha] using hinv
      · simp only [Bool.not_eq_true] at ha
        simp [lockStep, RedisLock.heartbeat, ha]

/-- C9 counterexample: the claimed two-way invariant "lock in held set
iff flag up" is false at a concrete call sequence.  After a successful
acquire followed by a failed re-acquire (the client returns False on an
already-held lock), the flag is down while the lock is still in the
driver's `_acquired_locks` set. -/
theorem lock_held_iff_flag_counterexample :
    ¬ ((redis_lock_name "_tooz" "res" ∈
          (lockRun (redis_lock_name "_tooz" "res") lockInit
            [LockOp.acquire AcquireResp.ok,
             LockOp.acquire AcquireResp.failed]).acquired_locks) ↔
        (lockRun (redis_lock_name "_tooz" "res") lockInit
            [LockOp.acquire AcquireResp.ok,
             LockOp.acquire AcquireResp.failed]).acquired = true) := by
  decide

/-- C9 (amended): after any sequence of acquire, release and heartbeat
calls, a raised flag implies membership in the held-lock set (only this
direction survives: a failed re-acquire clears the flag but leaves the
lock in the set); a release the store rejects with a LockError leaves
flag and set unchanged, and the heartbeat renewal loop issues an extend
for this lock whenever it sits in the held set with its flag up. -/
theorem lock_flag_implies_held (name : String) (ops : List LockOp)
    (st : LockDriverState)
    (hinv : st.acquired = true → name ∈ st.acquired_locks) :
    ((lockRun name st ops).acquired = true →
       name ∈ (lockRun name st ops).acquired_locks) ∧
    (∀ msg, st.acquired = true →
       RedisLock.release name (ReleaseResp.lockErr msg) st = (Except.ok false, st)) ∧
    (∀ flag : String → Bool, st.acquired = true → flag name = true →
       name ∈ heartbeat_extend_targets st.acquired_locks flag) := by
  refine ⟨?_, ?_, ?_⟩
  · induction ops generalizing st with
    | nil => simpa [lockRun] using hinv
    | cons op rest ih =>
        have h1 := lockStep_preserves_flag_held name st op hinv
        simpa [lockRun, List.foldl_cons] using ih (lockStep name st op) h1
  · intro msg h
    simp [RedisLock.release, h]
  · intro flag h hf
    simp [heartbeat_extend_targets, List.mem_filter, hinv h, hf]

/-- Witness for C9's amended invariant: after one successful acquire
the flag is up, so the invariant puts the lock in the held set. -/
theorem lock_flag_implies_held_witness :
    "_tooz_res_lock" ∈
      (lockRun "_tooz_res_lock" lockInit
        [LockOp.acquire AcquireResp.ok]).acquired_locks :=
  (lock_flag_implies_held "_tooz_res_lock" [LockOp.acquire AcquireResp.ok]
    lockInit (by decide)).1 (by decide)

/-! ## C6 and C10 — the asynchronous result boundary -/

/-- C6: a `get(timeout)` call with a finite bound always comes back
within it (never the blocked case); it raises OperationTimedOut
whenever the work has not completed within the bound; a redis-native
error raised inside the unit of work is delivered translated at the
`get` boundary (connection errors becoming ToozConnectionError), a tooz
error passes through unchanged, a value is returned; and submission
hands the future back untouched — no translation happens at submission
time. -/
theorem redis_future_get_spec {α : Type} (f : Fut α) (t tc : Nat) (r : RErr)
    (te : TErr) (a : α) (msg : String) :
    (RedisFutureResult.get f (some t) ≠ none) ∧
    ((∀ tc2 o, f.completion = some (tc2, o) → t < tc2) →
       RedisFutureResult.get f (some t) =
         some (Except.error (TErr.operationTimedOut "operation timed out"))) ∧
    (tc ≤ t →
       RedisFutureResult.get
           ({ completion := some (tc, WorkOut.redisExc r) } : Fut α) (some t) =
         some (Except.error (_translate_failures r)) ∧
       RedisFutureResult.get
           ({ completion := some (tc, WorkOut.toozExc te) } : Fut α) (some t) =
         some (Except.error te) ∧
       RedisFutureResult.get { completion := some (tc, WorkOut.value a) } (some t) =
         some (Except.ok a)) ∧
    (_translate_failures (RErr.connectionError msg) = TErr.toozConnectionError msg) ∧
    (∀ w : Fut α, _submit true true w = Except.ok w) := by
  refine ⟨?_, ?_, ?_, rfl, ?_⟩
  · cases hc : f.completion with
    | none => simp [RedisFutureResult.get, Fut.result, hc]
    | some p =>
        obtain ⟨tc2, o⟩ := p
        by_cases hle : tc2 ≤ t
        · cases o <;> simp [RedisFutureResult.get, Fut.result, hc, hle]
        · simp [RedisFutureResult.get, Fut.result, hc, hle]
  · intro h
    cases hc : f.completion with
    | none => simp [RedisFutureResult.get, Fut.result, hc]
    | some p =>
        obtain ⟨tc2, o⟩ := p
        have := h tc2 o hc
        simp [RedisFutureResult.get, Fut.result, hc, Nat.not_le_of_lt this]
  · intro hle
    refine ⟨?_, ?_, ?_⟩ <;> simp [RedisFutureResult.get, Fut.result, hle]
  · intro w
    simp [_submit]

/-- Witness for C6: a unit of work that completes at time 3 with a
redis connection error, awaited with timeout 10. -/
theorem redis_future_get_spec_witness :
    RedisFutureResult.get
        ({ completion := some (3, WorkOut.redisExc (RErr.connectionError "down")) } : Fut Nat)
        (some 10) =
      some (Except.error (_translate_failures (RErr.connectionError "down"))) :=
  ((redis_future_get_spec
      ({ completion := some (3, WorkOut.redisExc (RErr.connectionError "down")) } : Fut Nat)
      10 3 (RErr.connectionError "down") (TErr.toozError "x") 0 "down").2.2.1
    (by decide)).1

/-- C10: `get` called with its default timeout parameter (10) raises
OperationTimedOut whenever the work has not completed by 10 — in
particular on work that never completes it returns with that error
rather than blocking the caller indefinitely. -/
theorem redis_future_get_default_timeout {α : Type} (f : Fut α)
    (h : ∀ tc o, f.completion = some (tc, o) → 10 < tc) :
    RedisFutureResult.get f = RedisFutureResult.get f (some 10) ∧
    RedisFutureResult.get f =
      some (Except.error (TErr.operationTimedOut "operation timed out")) := by
  refine ⟨rfl, ?_⟩
  cases hc : f.completion with
  | none => simp [RedisFutureResult.get, Fut.result, hc]
  | some p =>
      obtain ⟨tc2, o⟩ := p
      have := h tc2 o hc
      simp [RedisFutureResult.get, Fut.result, hc, Nat.not_le_of_lt this]

/-- Witness for C10: work that never completes, awaited with the
default timeout. -/
theorem redis_future_get_default_timeout_witness :
    RedisFutureResult.get ({ completion := none } : Fut Nat) =
      RedisFutureResult.get ({ completion := none } : Fut Nat) (some 10) ∧
    RedisFutureResult.get ({ completion := none } : Fut Nat) =
      some (Except.error (TErr.operationTimedOut "operation timed out")) :=
  redis_future_get_default_timeout ({ completion := none } : Fut Nat)
    (by intro tc o h; simp at h)

/-! ## C2 — operations on a never-created group -/

/-- Well-formedness of a store reachable through the driver: every hash
held in the store is a group hash and therefore carries the
`_GROUP_EXISTS` sentinel field (it is set at creation and never
deleted, the sentinel being forbidden as a member id), and the only set
key in use is the group registry. -/
def StoreWF (ns : String) (s : RedisStore) : Prop :=
  (∀ p ∈ s.hashes, (alookup _GROUP_EXISTS p.2).isSome = true) ∧
  (∀ p ∈ s.sets, p.1 = groupsKey ns)

/-- The registry key never collides with an encoded group key. -/
theorem groupsKey_ne_encode_group (ns g : String) :
    groupsKey ns ≠ _encode_group_id ns g := by
  intro h
  have h2 := congrArg String.data h
  simp only [groupsKey, _encode_group_id, String.data_append,
    List.append_assoc] at h2
  have h3 := List.append_cancel_left h2
  simp at h3

/-- In a well-formed store, a group whose existence sentinel is absent
has no key at all, which is what the transactions' EXISTS guard
observes. -/
theorem absent_of_sentinel_absent (ns g : String) (s : RedisStore)
    (hwf : StoreWF ns s)
    (h : s.hexists (_encode_group_id ns g) _GROUP_EXISTS = false) :
    s.existsKey (_encode_group_id ns g) = false := by
  unfold RedisStore.existsKey
  cases hh : alookup (_encode_group_id ns g) s.hashes with
  | some hsh =>
      have hsent := hwf.1 _ (alookup_mem _ _ _ hh)
      unfold RedisStore.hexists at h
      rw [hh] at h
      simp at h
      rw [h] at hsent
      simp at hsent
  | none =>
      cases hs : alookup (_encode_group_id ns g) s.sets with
      | none => simp [hh, hs]
      | some m =>
          have hkey := hwf.2 _ (alookup_mem _ _ _ hs)
          exact absurd (groupsKey_ne_encode_group ns g) (by simp [hkey.symm])

/-- C2: on a group whose existence sentinel is absent from a
well-formed store, `get_members`, `join_group`, `leave_group` and
`update_capabilities` all fail with GroupNotCreated, and the store and
the driver's joined-groups set come back exactly as they were. -/
theorem absent_group_ops_fail (ns g m caps : String) (st : GroupState)
    (hwf : StoreWF ns st.store) (hm : m ≠ _GROUP_EXISTS)
    (habs : st.store.hexists (_encode_group_id ns g) _GROUP_EXISTS = false) :
    get_members ns g st.store = Except.error (TErr.groupNotCreated g) ∧
    join_group ns m g caps st = (Except.error (TErr.groupNotCreated g), st) ∧
    leave_group ns m g st = (Except.error (TErr.groupNotCreated g), st) ∧
    update_capabilities ns m g caps st =
      (Except.error (TErr.groupNotCreated g), st) := by
  have hex := absent_of_sentinel_absent ns g st.store hwf habs
  refine ⟨?_, ?_, ?_, ?_⟩ <;>
    simp [get_members, join_group, leave_group, update_capabilities,
      _encode_member_id, hm, hex]

/-- Witness for C2: the empty store and an ordinary member id. -/
theorem absent_group_ops_fail_witness :
    get_members "_tooz" "g1" (RedisStore.mk [] []) =
      Except.error (TErr.groupNotCreated "g1") ∧
    join_group "_tooz" "m1" "g1" "caps"
        { store := RedisStore.mk [] [], joined_groups := [] } =
      (Except.error (TErr.groupNotCreated "g1"),
       { store := RedisStore.mk [] [], joined_groups := [] }) :=
  ⟨(absent_group_ops_fail "_tooz" "g1" "m1" "caps"
      { store := RedisStore.mk [] [], joined_groups := [] }
      ⟨by simp, by simp⟩ (by decide) (by decide)).1,
   (absent_group_ops_fail "_tooz" "g1" "m1" "caps"
      { store := RedisStore.mk [] [], joined_groups := [] }
      ⟨by simp, by simp⟩ (by decide) (by decide)).2.1⟩

/-! ## C3 — group creation and the registry -/

/-- A key exists iff some hash or set lives there; the spelled-out
false case. -/
theorem existsKey_false (s : RedisStore) (k : String) :
    s.existsKey k = false ↔
      alookup k s.hashes = none ∧ alookup k s.sets = none := by
  cases h1 : alookup k s.hashes <;> cases h2 : alookup k s.sets <;>
    simp [RedisStore.existsKey, h1, h2]

/-- SADD never touches the hashes. -/
theorem sadd_hashes (s : RedisStore) (k v : String) :
    (s.sadd k v).hashes = s.hashes := by
  cases h : alookup k s.sets with
  | none => simp [RedisStore.sadd, h]
  | some m => by_cases hv : v ∈ m <;> simp [RedisStore.sadd, h, hv]

/-- HSET never touches the sets. -/
theorem hset_sets (s : RedisStore) (k f v : String) :
    (s.hset k f v).2.sets = s.sets := by
  cases h : alookup k s.hashes with
  | none => simp [RedisStore.hset, h]
  | some hsh => cases h2 : alookup f hsh <;> simp [RedisStore.hset, h, h2]

/-- SMEMBERS reads through HSET unchanged. -/
theorem smembers_hset (s : RedisStore) (k f v k2 : String) :
    (s.hset k f v).2.smembers k2 = s.smembers k2 := by
  unfold RedisStore.smembers
  rw [hset_sets]

/-- SMEMBERS after SADD at the same key: the value is appended unless
already a member. -/
theorem smembers_sadd_self (s : RedisStore) (k v : String) :
    (s.sadd k v).smembers k =
      if v ∈ s.smembers k then s.smembers k else s.smembers k ++ [v] := by
  cases h : alookup k s.sets with
  | none =>
      simp [RedisStore.sadd, RedisStore.smembers, h, alookup_aset_self]
  | some m =>
      by_cases hv : v ∈ m <;>
        simp [RedisStore.sadd, RedisStore.smembers, h, hv, alookup_aset_self]

/-- The field just written by HSET exists. -/
theorem hexists_hset_self (s : RedisStore) (k f v : String) :
    (s.hset k f v).2.hexists k f = true := by
  cases h : alookup k s.hashes with
  | none =>
      simp [RedisStore.hset, RedisStore.hexists, h, alookup_aset_self, alookup]
  | some hsh =>
      cases h2 : alookup f hsh <;>
        simp [RedisStore.hset, RedisStore.hexists, h, h2, alookup_aset_self]

/-- Did the transaction body succeed (no exception raised)? -/
def isOkU : Except TErr Unit → Bool
  | Except.ok _ => true
  | Except.error _ => false

/-- Repeated `create_group` attempts for the same group id: the state
after n calls. -/
def create_group_iter (ns g : String) : Nat → GroupState → GroupState
  | 0, st => st
  | Nat.succ n, st => create_group_iter ns g n (_create_group ns g st).2

/-- Whether at least one of n `create_group` attempts succeeded. -/
def create_group_iter_success (ns g : String) : Nat → GroupState → Bool
  | 0, _ => false
  | Nat.succ n, st =>
      isOkU (_create_group ns g st).1 ||
        create_group_iter_success ns g n (_create_group ns g st).2

/-- One `create_group` call either leaves the registry as it was (the
GroupAlreadyExist case, or the id already registered) or appends the
new id to it. -/
theorem create_group_registry_cases (ns g : String) (st : GroupState) :
    ((_create_group ns g st).2.store.smembers (groupsKey ns) =
        st.store.smembers (groupsKey ns)) ∨
    ((_create_group ns g st).2.store.smembers (groupsKey ns) =
        st.store.smembers (groupsKey ns) ++ [g] ∧
      g ∉ st.store.smembers (groupsKey ns)) := by
  by_cases hex : st.store.existsKey (_encode_group_id ns g)
  · left
    simp [_create_group, hex]
  · simp only [Bool.not_eq_true] at hex
    by_cases hg : g ∈ st.store.smembers (groupsKey ns)
    · left
      simp [_create_group, hex, smembers_hset, smembers_sadd_self, hg]
    · right
      refine ⟨?_, hg⟩
      simp [_create_group, hex, smembers_hset, smembers_sadd_self, hg]

/-- `create_group` succeeds exactly when the group key is absent. -/
theorem create_group_ok_iff (ns g : String) (st : GroupState) :
    isOkU (_create_group ns g st).1 = true ↔
      st.store.existsKey (_encode_group_id ns g) = false := by
  by_cases hex : st.store.existsKey (_encode_group_id ns g) <;>
    simp [_create_group, isOkU, hex]

/-- A successful `create_group` leaves the group id in the registry. -/
theorem create_group_success_mem (ns g : String) (st : GroupState)
    (h : isOkU (_create_group ns g st).1 = true) :
    g ∈ (_create_group ns g st).2.store.smembers (groupsKey ns) := by
  have hex := (create_group_ok_iff ns g st).1 h
  by_cases hg : g ∈ st.store.smembers (groupsKey ns) <;>
    simp [_create_group, hex, smembers_hset, smembers_sadd_self, hg]

/-- Registry membership is never lost by further `create_group`
calls. -/
theorem create_group_mono (ns g g2 : String) (st : GroupState)
    (h : g2 ∈ st.store.smembers (groupsKey ns)) :
    g2 ∈ (_create_group ns g st).2.store.smembers (groupsKey ns) := by
  rcases create_group_registry_cases ns g st with heq | ⟨heq, _⟩ <;>
    rw [heq] <;> simp [h]

/-- `create_group` keeps the registry duplicate-free. -/
theorem create_group_nodup (ns g : String) (st : GroupState)
    (h : (st.store.smembers (groupsKey ns)).Nodup) :
    ((_create_group ns g st).2.store.smembers (groupsKey ns)).Nodup := by
  rcases create_group_registry_cases ns g st with heq | ⟨heq, hg⟩ <;> rw [heq]
  · exact h
  · simp [List.nodup_append, h, hg]

/-- Registry membership survives any number of further attempts. -/
theorem create_group_iter_mono (ns g g2 : String) (n : Nat) :
    ∀ st : GroupState, g2 ∈ st.store.smembers (groupsKey ns) →
      g2 ∈ (create_group_iter ns g n st).store.smembers (groupsKey ns) := by
  induction n with
  | zero => intro st h; simpa [create_group_iter] using h
  | succ n ih =>
      intro st h
      simpa [create_group_iter] using ih _ (create_group_mono ns g g2 st h)

/-- The registry stays duplicate-free over any number of attempts. -/
theorem create_group_iter_nodup (ns g : String) (n : Nat) :
    ∀ st : GroupState, (st.store.smembers (groupsKey ns)).Nodup →
      ((create_group_iter ns g n st).store.smembers (groupsKey ns)).Nodup := by
  induction n with
  | zero => intro st h; simpa [create_group_iter] using h
  | succ n ih =>
      intro st h
      simpa [create_group_iter] using ih _ (create_group_nodup ns g st h)

/-- C3: `create_group` fails with GroupAlreadyExist when the group key
is already present, leaving everything untouched; when absent it
succeeds, registers the id and sets the existence sentinel; and after
any run of repeated attempts of which at least one succeeded,
`get_groups` lists the group exactly once. -/
theorem create_group_spec (ns g : String) (st : GroupState) (n : Nat)
    (hnd : (st.store.smembers (groupsKey ns)).Nodup) :
    (st.store.existsKey (_encode_group_id ns g) = true →
       _create_group ns g st = (Except.error (TErr.groupAlreadyExist g), st)) ∧
    (st.store.existsKey (_encode_group_id ns g) = false →
       isOkU (_create_group ns g st).1 = true ∧
       g ∈ get_groups ns (_create_group ns g st).2.store ∧
       (_create_group ns g st).2.store.hexists (_encode_group_id ns g)
         _GROUP_EXISTS = true) ∧
    (create_group_iter_success ns g n st = true →
       (get_groups ns (create_group_iter ns g n st).store).count g = 1) := by
  refine ⟨?_, ?_, ?_⟩
  · intro hex
    simp [_create_group, hex]
  · intro hex
    refine ⟨(create_group_ok_iff ns g st).2 hex, ?_, ?_⟩
    · simpa [get_groups, RedisStore.smembers] using
        create_group_success_mem ns g st ((create_group_ok_iff ns g st).2 hex)
    · simp [_create_group, hex, hexists_hset_self]
  · induction n generalizing st with
    | zero => intro h; simp [create_group_iter_success] at h
    | succ n ih =>
        intro h
        rw [create_group_iter_success, Bool.or_eq_true] at h
        have hnd1 := create_group_nodup ns g st hnd
        rcases h with h1 | h2
        · have hmem := create_group_iter_mono ns g g n _
            (create_group_success_mem ns g st h1)
          have hnd2 := create_group_iter_nodup ns g n _ hnd1
          simpa [create_group_iter, get_groups, RedisStore.smembers] using
            List.count_eq_one_of_mem hnd2 hmem
        · simpa [create_group_iter] using ih _ hnd1 h2

/-- Witness for C3: two creation attempts on a fresh store, the first
of which succeeds; the registry then lists the group once. -/
theorem create_group_spec_witness :
    create_group_iter_success "_tooz" "g1" 2
        { store := RedisStore.mk [] [], joined_groups := [] } = true ∧
    (get_groups "_tooz"
        (create_group_iter "_tooz" "g1" 2
          { store := RedisStore.mk [] [], joined_groups := [] }).store).count
      "g1" = 1 :=
  ⟨rfl,
   (create_group_spec "_tooz" "g1"
      { store := RedisStore.mk [] [], joined_groups := [] } 2
      (by decide)).2.2 rfl⟩

/-! ## C4 — member listing and exists-vs-empty disambiguation -/

/-- C4: for a group key that is absent, `get_members` fails with
GroupNotCreated, while the same call right after `create_group` returns
the empty member list — the created-and-empty group is observably
different from the never-created one; and on any existing group the
result is exactly the hash's field names with the existence sentinel
filtered out. -/
theorem get_members_spec (ns g : String) (st : GroupState) :
    (st.store.existsKey (_encode_group_id ns g) = false →
       get_members ns g st.store = Except.error (TErr.groupNotCreated g) ∧
       get_members ns g (_create_group ns g st).2.store = Except.ok []) ∧
    (st.store.existsKey (_encode_group_id ns g) = true →
       get_members ns g st.store =
         Except.ok ((st.store.hkeys (_encode_group_id ns g)).filter
           (· ≠ _GROUP_EXISTS))) := by
  constructor
  · intro hex
    obtain ⟨hh, hs⟩ := (existsKey_false st.store (_encode_group_id ns g)).1 hex
    constructor
    · simp [get_members, hex]
    · have hh1 : alookup (_encode_group_id ns g)
          (st.store.sadd (groupsKey ns) g).hashes = none := by
        rw [sadd_hashes]
        exact hh
      have hcreate : (_create_group ns g st).2.store =
          ((st.store.sadd (groupsKey ns) g).hset (_encode_group_id ns g)
            _GROUP_EXISTS "1").2 := by
        simp [_create_group, hex]
      have hstore : ((st.store.sadd (groupsKey ns) g).hset
            (_encode_group_id ns g) _GROUP_EXISTS "1").2.hashes =
          aset (_encode_group_id ns g) [(_GROUP_EXISTS, "1")]
            (st.store.sadd (groupsKey ns) g).hashes := by
        simp [RedisStore.hset, hh1]
      rw [hcreate]
      simp [get_members, RedisStore.existsKey, RedisStore.hkeys, hstore,
        alookup_aset_self]
  · intro hex
    simp [get_members, hex]

/-- Witness for C4: the fresh store, before and after creating g1. -/
theorem get_members_spec_witness :
    get_members "_tooz" "g1" (RedisStore.mk [] []) =
      Except.error (TErr.groupNotCreated "g1") ∧
    get_members "_tooz" "g1"
        (_create_group "_tooz" "g1"
          { store := RedisStore.mk [] [], joined_groups := [] }).2.store =
      Except.ok [] :=
  (get_members_spec "_tooz" "g1"
    { store := RedisStore.mk [] [], joined_groups := [] }).1 (by decide)

/-! ## C7 — event counting for run_watchers -/

/-- The group an event belongs to. -/
def evGroup : GroupEvent → String
  | GroupEvent.memberJoinedGroup g _ => g
  | GroupEvent.memberLeftGroup g _ => g

/-- Counting one invocation record in a hook run: every registration of
the callback fires once with the event, nothing else appears. -/
theorem count_hooks_run (hooks : List Nat) (e e2 : GroupEvent) (cb : Nat) :
    (hooks_run hooks e).count (cb, e2) =
      if e2 = e then hooks.count cb else 0 := by
  by_cases he : e2 = e
  · subst he
    rw [if_pos rfl]
    simp only [hooks_run]
    induction hooks with
    | nil => simp
    | cons c rest ih =>
        simp only [List.map_cons, List.count_cons, ih]
        by_cases hc : cb = c
        · subst hc
          simp
        · simp [hc]
  · rw [if_neg he, List.count_eq_zero]
    intro hmem
    simp only [hooks_run, List.mem_map] at hmem
    obtain ⟨c, _, hc⟩ := hmem
    exact he (congrArg Prod.snd hc).symm

/-- Counting an invocation record over the per-member loop: with no
duplicate member ids, the callback count of the hook list appears once
for a member in the list and not at all otherwise. -/
theorem count_flatMap_members (hooks : List Nat) (ms : List String)
    (hnd : ms.Nodup) (mk2 : String → GroupEvent)
    (hinj : ∀ a b, mk2 a = mk2 b → a = b) (cb : Nat) (mid : String) :
    (ms.flatMap (fun m => hooks_run hooks (mk2 m))).count (cb, mk2 mid) =
      if mid ∈ ms then hooks.count cb else 0 := by
  induction ms with
  | nil => simp
  | cons m rest ih =>
      have hndr : rest.Nodup := hnd.of_cons
      have hcount := ih hndr
      rw [List.flatMap_cons, List.count_append, count_hooks_run, hcount]
      by_cases hm : mid = m
      · subst hm
        have hnotin : mid ∉ rest := (List.nodup_cons.mp hnd).1
        simp [hnotin]
      · have hne : mk2 mid ≠ mk2 m := fun h => hm (hinj _ _ h)
        simp [hne, hm]

/-- Any record produced by a hook run carries the event it was run
with. -/
theorem mem_hooks_run (hooks : List Nat) (e : GroupEvent)
    (p : Nat × GroupEvent) (h : p ∈ hooks_run hooks e) : p.2 = e := by
  simp only [hooks_run, List.mem_map] at h
  obtain ⟨c, _, hc⟩ := h
  exact (congrArg Prod.snd hc).symm

/-- Any event of a per-member hook loop belongs to the group the events
were built for. -/
theorem evGroup_mem_flatMap (hooks : List Nat) (ms : List String) (g : String)
    (mk2 : String → GroupEvent) (hg : ∀ m, evGroup (mk2 m) = g)
    (p : Nat × GroupEvent)
    (h : p ∈ ms.flatMap (fun m => hooks_run hooks (mk2 m))) :
    evGroup p.2 = g := by
  simp only [List.mem_flatMap] at h
  obtain ⟨m, _, hp⟩ := h
  rw [mem_hooks_run hooks _ p hp]
  exact hg m

/-- A per-member hook loop contains no record of an event it never
fires. -/
theorem count_flatMap_ne (hooks : List Nat) (ms : List String)
    (mk2 : String → GroupEvent) (cb : Nat) (e : GroupEvent)
    (hne : ∀ m, mk2 m ≠ e) :
    (ms.flatMap (fun m => hooks_run hooks (mk2 m))).count (cb, e) = 0 := by
  rw [List.count_eq_zero]
  intro hmem
  simp only [List.mem_flatMap] at hmem
  obtain ⟨m, _, hp⟩ := hmem
  exact hne m (mem_hooks_run hooks _ _ hp).symm

/-- The invocation records `run_watchers` produces for one group:
join-hook runs for every newly-present member, then leave-hook runs for
every newly-absent member. -/
def group_events (ns g : String) (store : RedisStore) (ws : WatchState) :
    List (Nat × GroupEvent) :=
  ((current_member_set ns g store).filter (· ∉ snapshot_of ws g)).flatMap
    (fun m => hooks_run (join_hooks_of ws g)
      (GroupEvent.memberJoinedGroup g m)) ++
  ((snapshot_of ws g).filter (· ∉ current_member_set ns g store)).flatMap
    (fun m => hooks_run (leave_hooks_of ws g)
      (GroupEvent.memberLeftGroup g m))

/-- The watch state after one group's snapshot has been replaced. -/
def watch_after (g : String) (cur : List String) (ws : WatchState) :
    WatchState :=
  { ws with group_members := aset g cur ws.group_members }

/-- Closed form of the `run_watchers` loop body on an existing
group. -/
theorem run_watchers_group_eq (ns group_id : String) (store : RedisStore)
    (ws : WatchState)
    (hex : store.existsKey (_encode_group_id ns group_id) = true) :
    run_watchers_group ns group_id store ws =
      Except.ok (group_events ns group_id store ws,
        watch_after group_id (current_member_set ns group_id store) ws) := by
  have hmem : get_members ns group_id store =
      Except.ok ((store.hkeys (_encode_group_id ns group_id)).filter
        (· ≠ _GROUP_EXISTS)) := by
    simp [get_members, hex]
  simp only [run_watchers_group, hmem, group_events, watch_after,
    current_member_set]

/-- Every record in a group's event list belongs to that group. -/
theorem group_events_evGroup (ns g : String) (store : RedisStore)
    (ws : WatchState) (p : Nat × GroupEvent)
    (h : p ∈ group_events ns g store ws) : evGroup p.2 = g := by
  rcases List.mem_append.mp h with h1 | h1
  · exact evGroup_mem_flatMap _ _ g
      (fun m => GroupEvent.memberJoinedGroup g m) (fun m => rfl) p h1
  · exact evGroup_mem_flatMap _ _ g
      (fun m => GroupEvent.memberLeftGroup g m) (fun m => rfl) p h1

/-- Join-event count in one group's event list: the callback's
registration count when the member is newly present, zero otherwise. -/
theorem group_events_count_join (ns g : String) (store : RedisStore)
    (ws : WatchState) (cb : Nat) (mid : String) :
    (group_events ns g store ws).count
        (cb, GroupEvent.memberJoinedGroup g mid) =
      if mid ∈ current_member_set ns g store ∧ mid ∉ snapshot_of ws g
      then (join_hooks_of ws g).count cb else 0 := by
  unfold group_events
  rw [List.count_append]
  have hB : (((snapshot_of ws g).filter
      (· ∉ current_member_set ns g store)).flatMap
        (fun m => hooks_run (leave_hooks_of ws g)
          (GroupEvent.memberLeftGroup g m))).count
            (cb, GroupEvent.memberJoinedGroup g mid) = 0 :=
    count_flatMap_ne _ _ _ _ _ (fun m => by simp)
  rw [hB, Nat.add_zero]
  have hndj : ((current_member_set ns g store).filter
      (· ∉ snapshot_of ws g)).Nodup :=
    (List.nodup_dedup _).filter _
  rw [count_flatMap_members _ _ hndj
    (fun m => GroupEvent.memberJoinedGroup g m)
    (fun a b h => by simpa using h) cb mid]
  have hiff : (mid ∈ (current_member_set ns g store).filter
        (· ∉ snapshot_of ws g)) ↔
      (mid ∈ current_member_set ns g store ∧ mid ∉ snapshot_of ws g) := by
    simp [List.mem_filter]
  by_cases hc : mid ∈ current_member_set ns g store ∧ mid ∉ snapshot_of ws g
  · rw [if_pos (hiff.mpr hc), if_pos hc]
  · rw [if_neg (fun h => hc (hiff.mp h)), if_neg hc]

/-- Leave-event count in one group's event list (the stored snapshot
being duplicate-free, as Python sets are). -/
theorem group_events_count_leave (ns g : String) (store : RedisStore)
    (ws : WatchState) (hsnap : (snapshot_of ws g).Nodup) (cb : Nat)
    (mid : String) :
    (group_events ns g store ws).count
        (cb, GroupEvent.memberLeftGroup g mid) =
      if mid ∈ snapshot_of ws g ∧ mid ∉ current_member_set ns g store
      then (leave_hooks_of ws g).count cb else 0 := by
  unfold group_events
  rw [List.count_append]
  have hA : (((current_member_set ns g store).filter
      (· ∉ snapshot_of ws g)).flatMap
        (fun m => hooks_run (join_hooks_of ws g)
          (GroupEvent.memberJoinedGroup g m))).count
            (cb, GroupEvent.memberLeftGroup g mid) = 0 :=
    count_flatMap_ne _ _ _ _ _ (fun m => by simp)
  rw [hA, Nat.zero_add]
  have hndl : ((snapshot_of ws g).filter
      (· ∉ current_member_set ns g store)).Nodup := hsnap.filter _
  rw [count_flatMap_members _ _ hndl
    (fun m => GroupEvent.memberLeftGroup g m)
    (fun a b h => by simpa using h) cb mid]
  have hiff : (mid ∈ (snapshot_of ws g).filter
        (· ∉ current_member_set ns g store)) ↔
      (mid ∈ snapshot_of ws g ∧ mid ∉ current_member_set ns g store) := by
    simp [List.mem_filter]
  by_cases hc : mid ∈ snapshot_of ws g ∧ mid ∉ current_member_set ns g store
  · rw [if_pos (hiff.mpr hc), if_pos hc]
  · rw [if_neg (fun h => hc (hiff.mp h)), if_neg hc]

/-- One group's event list holds nothing about any other group. -/
theorem group_events_count_other (ns g g2 : String) (store : RedisStore)
    (ws : WatchState) (hne : g2 ≠ g) (cb : Nat) (mid : String) :
    (group_events ns g store ws).count
        (cb, GroupEvent.memberJoinedGroup g2 mid) = 0 ∧
    (group_events ns g store ws).count
        (cb, GroupEvent.memberLeftGroup g2 mid) = 0 := by
  have hgne : g ≠ g2 := Ne.symm hne
  constructor <;>
  · unfold group_events
    rw [List.count_append,
      count_flatMap_ne _ _ _ _ _ (fun m => by simp [hgne]),
      count_flatMap_ne _ _ _ _ _ (fun m => by simp [hgne])]

/-- Invariant of the `run_watchers` loop over a duplicate-free group
list whose groups all exist and whose stored snapshots are
duplicate-free: the loop succeeds, snapshots of unvisited groups are
untouched, every record belongs to a visited group, and for every
visited group the snapshot is replaced by the current member set while
the join/leave record counts match the membership diff taken against
the state the loop started from. -/
theorem run_watchers_go_spec (ns : String) (store : RedisStore) :
    ∀ (gs : List String) (ws : WatchState), gs.Nodup →
      (∀ g ∈ gs, store.existsKey (_encode_group_id ns g) = true) →
      (∀ g ∈ gs, (snapshot_of ws g).Nodup) →
      ∃ evs ws2, run_watchers_go ns store gs ws = Except.ok (evs, ws2) ∧
        (∀ g, g ∉ gs →
          alookup g ws2.group_members = alookup g ws.group_members) ∧
        (∀ p ∈ evs, evGroup p.2 ∈ gs) ∧
        (∀ g ∈ gs,
          alookup g ws2.group_members =
            some (current_member_set ns g store) ∧
          (∀ cb mid,
            evs.count (cb, GroupEvent.memberJoinedGroup g mid) =
              if mid ∈ current_member_set ns g store ∧ mid ∉ snapshot_of ws g
              then (join_hooks_of ws g).count cb else 0) ∧
          (∀ cb mid,
            evs.count (cb, GroupEvent.memberLeftGroup g mid) =
              if mid ∈ snapshot_of ws g ∧ mid ∉ current_member_set ns g store
              then (leave_hooks_of ws g).count cb else 0)) := by
  intro gs
  induction gs with
  | nil =>
      intro ws _ _ _
      exact ⟨[], ws, rfl, fun g _ => rfl, by simp, by simp⟩
  | cons g rest ih =>
      intro ws hnd hex hsnap
      have hexg := hex g (List.mem_cons_self g rest)
      have hsng := hsnap g (List.mem_cons_self g rest)
      have hgrest : g ∉ rest := (List.nodup_cons.mp hnd).1
      have hndrest : rest.Nodup := (List.nodup_cons.mp hnd).2
      have hsframe : ∀ g2, g2 ≠ g →
          snapshot_of (watch_after g (current_member_set ns g store) ws) g2 =
            snapshot_of ws g2 := by
        intro g2 hne
        simp [snapshot_of, watch_after, alookup_aset_ne _ _ _ _ hne]
      have hsnap1 : ∀ g2 ∈ rest,
          (snapshot_of (watch_after g (current_member_set ns g store) ws)
            g2).Nodup := by
        intro g2 hg2
        rw [hsframe g2 (fun e => hgrest (e ▸ hg2))]
        exact hsnap g2 (List.mem_cons_of_mem _ hg2)
      obtain ⟨evs2, ws2, hrun2, hframe2, hgrp2, hmain2⟩ :=
        ih (watch_after g (current_member_set ns g store) ws) hndrest
          (fun g2 h => hex g2 (List.mem_cons_of_mem _ h)) hsnap1
      refine ⟨group_events ns g store ws ++ evs2, ws2, ?_, ?_, ?_, ?_⟩
      · simp only [run_watchers_go, run_watchers_group_eq ns g store ws hexg,
          hrun2]
      · intro g2 hg2
        have hne : g2 ≠ g := fun e => hg2 (e ▸ List.mem_cons_self g rest)
        have hnr : g2 ∉ rest := fun h => hg2 (List.mem_cons_of_mem _ h)
        rw [hframe2 g2 hnr]
        simp [watch_after, alookup_aset_ne _ _ _ _ hne]
      · intro p hp
        rcases List.mem_append.mp hp with h1 | h1
        · rw [group_events_evGroup ns g store ws p h1]
          exact List.mem_cons_self g rest
        · exact List.mem_cons_of_mem _ (hgrp2 p h1)
      · intro g2 hg2
        rcases List.mem_cons.mp hg2 with hgg | hgr
        · subst hgg
          refine ⟨?_, ?_, ?_⟩
          · rw [hframe2 g2 hgrest]
            simp [watch_after, alookup_aset_self]
          · intro cb mid
            rw [List.count_append]
            have h2 : evs2.count (cb, GroupEvent.memberJoinedGroup g2 mid) = 0 := by
              rw [List.count_eq_zero]
              intro hmem
              exact hgrest (hgrp2 _ hmem)
            rw [h2, Nat.add_zero, group_events_count_join]
          · intro cb mid
            rw [List.count_append]
            have h2 : evs2.count (cb, GroupEvent.memberLeftGroup g2 mid) = 0 := by
              rw [List.count_eq_zero]
              intro hmem
              exact hgrest (hgrp2 _ hmem)
            rw [h2, Nat.add_zero, group_events_count_leave ns g2 store ws hsng]
        · have hne : g2 ≠ g := fun e => hgrest (e ▸ hgr)
          obtain ⟨hm1, hm2, hm3⟩ := hmain2 g2 hgr
          refine ⟨hm1, ?_, ?_⟩
          · intro cb mid
            rw [List.count_append,
              (group_events_count_other ns g g2 store ws hne cb mid).1,
              Nat.zero_add, hm2 cb mid, hsframe g2 hne]
            rfl
          · intro cb mid
            rw [List.count_append,
              (group_events_count_other ns g g2 store ws hne cb mid).2,
              Nat.zero_add, hm3 cb mid, hsframe g2 hne]
            rfl

/-- C7: on a duplicate-free registry of existing groups (snapshots
being sets), `run_watchers` succeeds and, for every known group, each
registered join-callback is invoked with exactly one event per member
id now present but absent from the previous snapshot, each registered
leave-callback with exactly one event per member id previously present
but now absent, and the stored snapshot of the group is replaced with
the current member set. -/
theorem run_watchers_spec (ns : String) (store : RedisStore)
    (ws : WatchState) (hnd : (get_groups ns store).Nodup)
    (hex : ∀ g ∈ get_groups ns store,
      store.existsKey (_encode_group_id ns g) = true)
    (hsnap : ∀ g ∈ get_groups ns store, (snapshot_of ws g).Nodup) :
    ∃ evs ws2, run_watchers ns store ws = Except.ok (evs, ws2) ∧
      ∀ g ∈ get_groups ns store,
        alookup g ws2.group_members =
          some (current_member_set ns g store) ∧
        (∀ cb ∈ join_hooks_of ws g, (join_hooks_of ws g).Nodup → ∀ mid,
          evs.count (cb, GroupEvent.memberJoinedGroup g mid) =
            if mid ∈ current_member_set ns g store ∧ mid ∉ snapshot_of ws g
            then 1 else 0) ∧
        (∀ cb ∈ leave_hooks_of ws g, (leave_hooks_of ws g).Nodup → ∀ mid,
          evs.count (cb, GroupEvent.memberLeftGroup g mid) =
            if mid ∈ snapshot_of ws g ∧ mid ∉ current_member_set ns g store
            then 1 else 0) := by
  obtain ⟨evs, ws2, hrun, _, _, hmain⟩ :=
    run_watchers_go_spec ns store (get_groups ns store) ws hnd hex hsnap
  refine ⟨evs, ws2, hrun, ?_⟩
  intro g hg
  obtain ⟨hm1, hm2, hm3⟩ := hmain g hg
  refine ⟨hm1, ?_, ?_⟩
  · intro cb hcb hhnd mid
    rw [hm2 cb mid]
    by_cases hc : mid ∈ current_member_set ns g store ∧ mid ∉ snapshot_of ws g
    · rw [if_pos hc, if_pos hc, List.count_eq_one_of_mem hhnd hcb]
    · rw [if_neg hc, if_neg hc]
  · intro cb hcb hhnd mid
    rw [hm3 cb mid]
    by_cases hc : mid ∈ snapshot_of ws g ∧ mid ∉ current_member_set ns g store
    · rw [if_pos hc, if_pos hc, List.count_eq_one_of_mem hhnd hcb]
    · rw [if_neg hc, if_neg hc]

/-- A concrete store for exercising the watcher: group g1 exists with
one member m1, and the registry lists g1. -/
def wstore : RedisStore :=
  { hashes := [("_tooz_group:g1", [("__created__", "1"), ("m1", "x")])],
    sets := [("_tooz_groups", ["g1"])] }

/-- A concrete watch state: callback 7 registered for joins on g1, no
snapshot recorded yet. -/
def wwatch : WatchState :=
  { group_members := [],
    hooks_join_group := [("g1", [7])],
    hooks_leave_group := [] }

/-- Witness for C7: polling the concrete store with an empty snapshot
fires callback 7 exactly once for the one member of g1. -/
theorem run_watchers_spec_witness :
    ∃ evs ws2, run_watchers "_tooz" wstore wwatch = Except.ok (evs, ws2) ∧
      ∀ g ∈ get_groups "_tooz" wstore,
        alookup g ws2.group_members =
          some (current_member_set "_tooz" g wstore) ∧
        (∀ cb ∈ join_hooks_of wwatch g, (join_hooks_of wwatch g).Nodup →
          ∀ mid,
          evs.count (cb, GroupEvent.memberJoinedGroup g mid) =
            if mid ∈ current_member_set "_tooz" g wstore ∧
                mid ∉ snapshot_of wwatch g
            then 1 else 0) ∧
        (∀ cb ∈ leave_hooks_of wwatch g, (leave_hooks_of wwatch g).Nodup →
          ∀ mid,
          evs.count (cb, GroupEvent.memberLeftGroup g mid) =
            if mid ∈ snapshot_of wwatch g ∧
                mid ∉ current_member_set "_tooz" g wstore
            then 1 else 0) :=
  run_watchers_spec "_tooz" wstore wwatch (by decide) (by decide) (by decide)

/-! ## C8 — snapshot initialization on watch registration -/

/-- The `run_watchers` loop fires nothing when, for every group it
visits, either no callback is registered or the stored snapshot already
holds exactly the current member set. -/
theorem run_watchers_go_no_events (ns : String) (store : RedisStore) :
    ∀ (gs : List String) (ws : WatchState),
      (∀ g ∈ gs, store.existsKey (_encode_group_id ns g) = true) →
      (∀ g ∈ gs,
        (join_hooks_of ws g = [] ∧ leave_hooks_of ws g = []) ∨
        (∀ m, m ∈ snapshot_of ws g ↔ m ∈ current_member_set ns g store)) →
      ∃ ws2, run_watchers_go ns store gs ws = Except.ok ([], ws2) := by
  intro gs
  induction gs with
  | nil => intro ws _ _; exact ⟨ws, rfl⟩
  | cons g rest ih =>
      intro ws hex hcond
      have hexg := hex g (List.mem_cons_self g rest)
      have hevs : group_events ns g store ws = [] := by
        rcases hcond g (List.mem_cons_self g rest) with ⟨hj, hl⟩ | hiff
        · unfold group_events
          rw [hj, hl]
          simp [hooks_run]
        · unfold group_events
          have h1 : (current_member_set ns g store).filter
              (· ∉ snapshot_of ws g) = [] := by
            rw [List.filter_eq_nil_iff]
            intro m hm
            simp [(hiff m).mpr hm]
          have h2 : (snapshot_of ws g).filter
              (· ∉ current_member_set ns g store) = [] := by
            rw [List.filter_eq_nil_iff]
            intro m hm
            simp [(hiff m).mp hm]
          rw [h1, h2]
          simp
      have hcond1 : ∀ g2 ∈ rest,
          (join_hooks_of (watch_after g (current_member_set ns g store) ws)
              g2 = [] ∧
            leave_hooks_of (watch_after g (current_member_set ns g store) ws)
              g2 = []) ∨
          (∀ m, m ∈ snapshot_of
              (watch_after g (current_member_set ns g store) ws) g2 ↔
            m ∈ current_member_set ns g2 store) := by
        intro g2 hg2
        by_cases hgg : g2 = g
        · subst hgg
          right
          intro m
          simp [snapshot_of, watch_after, alookup_aset_self]
        · have hfr : snapshot_of
              (watch_after g (current_member_set ns g store) ws) g2 =
                snapshot_of ws g2 := by
            simp [snapshot_of, watch_after, alookup_aset_ne _ _ _ _ hgg]
          rcases hcond g2 (List.mem_cons_of_mem _ hg2) with hc | hc
          · left
            exact hc
          · right
            rw [hfr]
            exact hc
      obtain ⟨ws2, hrun⟩ :=
        ih (watch_after g (current_member_set ns g store) ws)
          (fun g2 h => hex g2 (List.mem_cons_of_mem _ h)) hcond1
      refine ⟨ws2, ?_⟩
      simp only [run_watchers_go, run_watchers_group_eq ns g store ws hexg,
        hrun, hevs, List.nil_append]

/-- C8: on the first watch registration for a group (no snapshot entry
yet, no callbacks registered anywhere), the current membership is
fetched and stored as the group's snapshot; an immediately following
`run_watchers` with an unchanged store fires no callback at all; and a
further registration for the same group leaves the stored snapshot the
current member set. -/
theorem watch_join_group_spec (ns g : String) (cb cb2 : Nat)
    (store : RedisStore) (ws : WatchState)
    (hfresh : alookup g ws.group_members = none)
    (hjh : ws.hooks_join_group = [])
    (hlh : ws.hooks_leave_group = [])
    (hg : store.existsKey (_encode_group_id ns g) = true)
    (hex : ∀ g2 ∈ get_groups ns store,
      store.existsKey (_encode_group_id ns g2) = true) :
    ∃ ws1, watch_join_group ns g cb store ws = Except.ok ws1 ∧
      alookup g ws1.group_members = some (current_member_set ns g store) ∧
      (∃ ws2, run_watchers ns store ws1 = Except.ok ([], ws2)) ∧
      (∃ ws3, watch_leave_group ns g cb2 store ws1 = Except.ok ws3 ∧
        alookup g ws3.group_members =
          some (current_member_set ns g store)) := by
  have hmem : get_members ns g store =
      Except.ok ((store.hkeys (_encode_group_id ns g)).filter
        (· ≠ _GROUP_EXISTS)) := by
    simp [get_members, hg]
  have hinit : _init_watch_group ns g store ws =
      Except.ok { ws with
        group_members := (aset g (current_member_set ns g store) ws.group_members) } := by
    simp [_init_watch_group, hmem, snapshot_of, hfresh, current_member_set]
  refine ⟨{
    group_members := (aset g (current_member_set ns g store) ws.group_members),
    hooks_join_group := [(g, [cb])], hooks_leave_group := [] },
    ?_, ?_, ?_, ?_⟩
  · simp [watch_join_group, hinit, join_hooks_of, hjh, hlh, aset, alookup]
  · exact alookup_aset_self g _ ws.group_members
  · apply run_watchers_go_no_events
    · exact hex
    · intro g2 _
      by_cases hgg : g2 = g
      · subst hgg
        right
        intro m
        simp [snapshot_of, alookup_aset_self]
      · left
        have hgg2 : ¬ g = g2 := fun e => hgg e.symm
        constructor <;> simp [join_hooks_of, leave_hooks_of, alookup, hgg2]
  · have hsnap1 : snapshot_of
        { group_members := aset g (current_member_set ns g store)
            ws.group_members,
          hooks_join_group := [(g, [cb])],
          hooks_leave_group := ([] : List (String × List Nat)) } g =
        current_member_set ns g store := by
      simp [snapshot_of, alookup_aset_self]
    have hfill : current_member_set ns g store ++
        ((store.hkeys (_encode_group_id ns g)).filter
          (· ≠ _GROUP_EXISTS)).dedup.filter
            (· ∉ current_member_set ns g store) =
        current_member_set ns g store := by
      have hnil : ((store.hkeys (_encode_group_id ns g)).filter
          (· ≠ _GROUP_EXISTS)).dedup.filter
            (· ∉ current_member_set ns g store) = [] := by
        rw [List.filter_eq_nil_iff]
        intro m hm
        have hm2 : m ∈ current_member_set ns g store := hm
        simp [hm2]
      rw [hnil, List.append_nil]
    refine ⟨{
      group_members := (aset g (current_member_set ns g store)
        (aset g (current_member_set ns g store) ws.group_members)),
      hooks_join_group := [(g, [cb])],
      hooks_leave_group := [(g, [cb2])] }, ?_, ?_⟩
    · have hfill2 := hfill
      simp only [ne_eq, decide_not] at hfill2
      simp [watch_leave_group, _init_watch_group, hmem, hsnap1,
        leave_hooks_of, alookup, aset]
      rw [hfill2]
    · simp [alookup_aset_self]

/-- A concrete store for the registration scenario: group g2 exists
with one member m2, and the registry lists g2. -/
def w8store : RedisStore :=
  { hashes := [("_tooz_group:g2", [("__created__", "1"), ("m2", "y")])],
    sets := [("_tooz_groups", ["g2"])] }

/-- Witness for C8: registering callback 3 on g2 from a fresh watch
state snapshots the one member, the immediate poll fires nothing, and a
second registration keeps the snapshot intact. -/
theorem watch_join_group_spec_witness :
    ∃ ws1, watch_join_group "_tooz" "g2" 3 w8store
        { group_members := [], hooks_join_group := [],
          hooks_leave_group := [] } = Except.ok ws1 ∧
      alookup "g2" ws1.group_members =
        some (current_member_set "_tooz" "g2" w8store) ∧
      (∃ ws2, run_watchers "_tooz" w8store ws1 = Except.ok ([], ws2)) ∧
      (∃ ws3, watch_leave_group "_tooz" "g2" 4 w8store ws1 =
          Except.ok ws3 ∧
        alookup "g2" ws3.group_members =
          some (current_member_set "_tooz" "g2" w8store)) :=
  watch_join_group_spec "_tooz" "g2" 3 4 w8store
    { group_members := [], hooks_join_group := [], hooks_leave_group := [] }
    rfl rfl rfl (by decide) (by decide)
